import Mathlib

/-!
Verification of the dialogue-progression engine of
`simple_fastapi_rule_based_chatbot` (`src/main.py`).

The whole decision logic of the repository lives in the static `QUESTIONS`
dictionary and the single request handler `chat(request)`.  This file embeds
that handler as a pure function: Python dictionaries become association lists
(`dictGet` is `d.get(k)`), the optional `user_input` becomes `Option String`,
and a raised `HTTPException` becomes the `Except.error` side of the result.
The handler body has three sequential blocks, embedded as three functions
composed by `chat`:

* `resolveFromHistory` — src/main.py lines 134-152: compute the default
  `next_question_id` from the last history entry, raising on a missing
  transition (HTTP 400, "Invalid state: Could not determine next question.").
* `processInput` — src/main.py lines 154-181: validate `user_input` against
  the options of the last history entry's question, append the entry, and
  recompute `next_question_id`, raising on an invalid answer (HTTP 400,
  "Invalid input for ...").
* `renderNext` — src/main.py lines 183-208: build the `ChatResponse`
  (continue-with-question or complete-with-summary), raising the internal
  error (HTTP 500) when `next_question_id` is neither `"end"` nor a key of
  `QUESTIONS`.

Python truthiness of the strings taken from the last history entry
(`if last_question_id and last_answer:`) is embedded as explicit
comparisons with the empty string.
-/

set_option maxRecDepth 8000

/-- One question-answer pair of the conversation history
(`class ConversationEntry` in src/main.py). -/
structure ConversationEntry where
  question_id : String
  answer : String
  deriving DecidableEq

/-- One node of the static question graph: prompt text, ordered option labels,
and the transition mapping from option label to the next question id or the
terminal marker `"end"` (the per-question dictionaries inside `QUESTIONS`). -/
structure QuestionConfig where
  question : String
  options : List String
  next_question_map : List (String × String)
  deriving DecidableEq

/-- The response body of the `/chat` endpoint
(`class ChatResponse` in src/main.py).  `final_summary` is a Python dict,
embedded as an insertion-ordered association list. -/
structure ChatResponse where
  message : String
  question_id : Option String
  options : Option (List String)
  conversation_history : List ConversationEntry
  is_conversation_complete : Bool
  final_summary : Option (List (String × String))
  deriving DecidableEq

/-- The three `HTTPException`s the handler can raise.
`invalidAnswer` is the HTTP 400 whose detail is
"Invalid input for (prompt): (rejected value). Please choose from (options).";
`corruptHistory` is the HTTP 400 with detail
"Invalid state: Could not determine next question.";
`internalError` is the HTTP 500 with detail
"Chatbot internal error: Could not find next question.". -/
inductive ChatError where
  | invalidAnswer (questionPrompt : String) (validOptions : List String)
      (rejectedValue : String)
  | corruptHistory
  | internalError
  deriving DecidableEq

/-- Python dict lookup `d.get(k)`: the value at the first (unique) matching
key, `none` when the key is absent. -/
def dictGet {α : Type} : List (String × α) → String → Option α
  | [], _ => none
  | (k2, v) :: rest, k => if k2 = k then some v else dictGet rest k

/-- Python dict insertion `d[k] = v`: overwrite in place when the key is
already present, append otherwise (insertion order preserved). -/
def dictInsert : List (String × String) → String → String → List (String × String)
  | [], k, v => [(k, v)]
  | (k2, v2) :: rest, k, v =>
      if k2 = k then (k2, v) :: rest else (k2, v2) :: dictInsert rest k v

/-- The static question graph (`QUESTIONS` in src/main.py), an
insertion-ordered dictionary from question id to its configuration. -/
def QUESTIONS : List (String × QuestionConfig) := [
  ("q1_food_type",
    { question := "What kind of food are you in the mood for?",
      options := ["Italian", "Mexican", "Indian"],
      next_question_map := [
        ("Italian", "q2_italian_preference"),
        ("Mexican", "q2_mexican_spice"),
        ("Indian", "q2_indian_dish")] }),
  ("q2_italian_preference",
    { question := "Do you prefer pasta or pizza?",
      options := ["Pasta", "Pizza"],
      next_question_map := [
        ("Pasta", "q3_pasta_sauce"),
        ("Pizza", "q3_pizza_toppings")] }),
  ("q2_mexican_spice",
    { question := "Do you like your Mexican food spicy or mild?",
      options := ["Spicy", "Mild"],
      next_question_map := [
        ("Spicy", "q3_mexican_dish"),
        ("Mild", "q3_mexican_dish")] }),
  ("q2_indian_dish",
    { question := "Great choice! Which Indian dish sounds good?",
      options := ["Curry", "Biryani", "Naan with Dal"],
      next_question_map := [
        ("Curry", "end"),
        ("Biryani", "end"),
        ("Naan with Dal", "end")] }),
  ("q3_pasta_sauce",
    { question := "Which pasta sauce would you prefer?",
      options := ["Marinara", "Alfredo", "Pesto"],
      next_question_map := [
        ("Marinara", "end"),
        ("Alfredo", "end"),
        ("Pesto", "end")] }),
  ("q3_pizza_toppings",
    { question := "Any specific pizza toppings in mind?",
      options := ["Pepperoni", "Mushrooms", "Vegetables"],
      next_question_map := [
        ("Pepperoni", "end"),
        ("Mushrooms", "end"),
        ("Vegetables", "end")] }),
  ("q3_mexican_dish",
    { question := "What kind of Mexican dish are you thinking of?",
      options := ["Tacos", "Burritos", "Enchiladas"],
      next_question_map := [
        ("Tacos", "end"),
        ("Burritos", "end"),
        ("Enchiladas", "end")] })]

/-- The `final_summary` dict comprehension of src/main.py line 186,
`{entry.question_id: entry.answer for entry in current_history}`:
a left fold inserting each entry into an initially empty dict, a later
duplicate key overwriting the earlier value in place. -/
def buildSummary (current_history : List ConversationEntry) :
    List (String × String) :=
  current_history.foldl (fun m e => dictInsert m e.question_id e.answer) []

/-- src/main.py lines 134-152.  Reads the last history entry and computes the
default `next_question_id` ("q1_food_type" when the history is empty, when a
component of the last entry is falsy, or when the last question id is not a
key of `QUESTIONS`; every node dictionary contains the key
"next_question_map", so that containment test of line 148 is always true).
Raises `corruptHistory` when the recorded answer has no transition
(lines 150-152). -/
def resolveFromHistory (current_history : List ConversationEntry) :
    Except ChatError (Option String) :=
  match current_history.getLast? with
  | none => Except.ok (some "q1_food_type")
  | some last_entry =>
    if last_entry.question_id ≠ "" ∧ last_entry.answer ≠ "" then
      match dictGet QUESTIONS last_entry.question_id with
      | some prev_question_config =>
        match dictGet prev_question_config.next_question_map last_entry.answer with
        | some nid => Except.ok (some nid)
        | none => Except.error ChatError.corruptHistory
      | none => Except.ok (some "q1_food_type")
    else Except.ok (some "q1_food_type")

/-- src/main.py lines 154-181.  When `user_input` is present and the last
history entry's question id is truthy and a key of `QUESTIONS`, validates the
input against that question's options (raising `invalidAnswer` on a miss,
lines 160-165), appends the entry (lines 166-169) and recomputes
`next_question_id` from the newly appended answer (lines 170-176; the
`else: next_question_id = "end"` arm of line 176 is unreachable because every
node has a `next_question_map`).  In every other case — no input, empty
history, or an unknown last question id — both the history and the incoming
`next_question_id` pass through unchanged (lines 177-181 fall through). -/
def processInput (current_history : List ConversationEntry)
    (user_input : Option String) (next_question_id : Option String) :
    Except ChatError (List ConversationEntry × Option String) :=
  match user_input with
  | none => Except.ok (current_history, next_question_id)
  | some input =>
    match current_history.getLast? with
    | some last_entry =>
      if last_entry.question_id ≠ "" then
        match dictGet QUESTIONS last_entry.question_id with
        | some cfg =>
          if input ∈ cfg.options then
            Except.ok (current_history ++ [⟨last_entry.question_id, input⟩],
                       dictGet cfg.next_question_map input)
          else
            Except.error (ChatError.invalidAnswer cfg.question cfg.options input)
        | none => Except.ok (current_history, next_question_id)
      else Except.ok (current_history, next_question_id)
    | none => Except.ok (current_history, next_question_id)

/-- src/main.py lines 183-208.  Builds the response from the final
`next_question_id` and history: the completion response with the folded
summary when the id is `"end"` (lines 184-194), the next-question response
when it is a key of `QUESTIONS` (lines 195-205), and the HTTP 500
`internalError` otherwise (lines 206-208; in Python a `None`
`next_question_id` also lands here, since `None == "end"` and
`None in QUESTIONS` are both false). -/
def renderNext (current_history : List ConversationEntry)
    (next_question_id : Option String) : Except ChatError ChatResponse :=
  if next_question_id = some "end" then
    Except.ok
      { message := "Thank you for your responses! Here\x27s a summary of your preferences:",
        question_id := none,
        options := none,
        conversation_history := current_history,
        is_conversation_complete := true,
        final_summary := some (buildSummary current_history) }
  else
    match next_question_id with
    | some nid =>
      match dictGet QUESTIONS nid with
      | some next_question_config =>
        Except.ok
          { message := next_question_config.question,
            question_id := some nid,
            options := some next_question_config.options,
            conversation_history := current_history,
            is_conversation_complete := false,
            final_summary := none }
      | none => Except.error ChatError.internalError
    | none => Except.error ChatError.internalError

/-- The `/chat` handler (`chat(request)` in src/main.py, lines 125-208):
the three sequential blocks, a raise in an earlier block short-circuiting
the rest. -/
def chat (conversation_history : List ConversationEntry)
    (user_input : Option String) : Except ChatError ChatResponse :=
  match resolveFromHistory conversation_history with
  | Except.error e => Except.error e
  | Except.ok next0 =>
    match processInput conversation_history user_input next0 with
    | Except.error e => Except.error e
    | Except.ok (h2, next1) => renderNext h2 next1

/-- Well-formedness check of one graph node: every option has a transition,
every transition key is an option, and every transition target is `"end"` or
an existing question id. -/
def nodeOk (graph : List (String × QuestionConfig)) (cfg : QuestionConfig) :
    Bool :=
  cfg.options.all (fun o => (dictGet cfg.next_question_map o).isSome) &&
  cfg.next_question_map.all (fun kv => cfg.options.contains kv.1) &&
  cfg.next_question_map.all (fun kv => kv.2 == "end" || (dictGet graph kv.2).isSome)

/-- Bounded terminal reachability: within `fuel` lookups, every option of the
question `qid` (and recursively of every question reachable from it) leads to
the terminal marker `"end"`. -/
def reachesEnd : Nat → String → Bool
  | 0, _ => false
  | fuel + 1, qid =>
    if qid = "end" then true
    else
      match dictGet QUESTIONS qid with
      | none => false
      | some cfg =>
        cfg.options.all (fun o =>
          match dictGet cfg.next_question_map o with
          | some nid => reachesEnd fuel nid
          | none => false)

/-- The recorded answer of the last history entry for a given question id
(`none` when the id never occurs): the reference value against which the
folded summary is checked. -/
def lastAnswerFor : List ConversationEntry → String → Option String
  | [], _ => none
  | e :: rest, qid =>
    match lastAnswerFor rest qid with
    | some a => some a
    | none => if e.question_id = qid then some e.answer else none

/-- First-of-two option values: the combinator under which the summary fold is
expressed (`firstSome a b` is `a` unless `a` is `none`). -/
def firstSome (a b : Option String) : Option String :=
  match a with
  | some x => some x
  | none => b

/-- A `next_question_id` value that cannot reach the HTTP 500 branch: it is
present, and is either the terminal marker or a key of `QUESTIONS`. -/
def NextIdOk (n : Option String) : Prop :=
  ∃ nid, n = some nid ∧ (nid = "end" ∨ (dictGet QUESTIONS nid).isSome = true)

theorem dictInsert_cons_eq (rest : List (String × String)) (k v v2 : String) :
    dictInsert ((k, v2) :: rest) k v = (k, v) :: rest := by
  simp [dictInsert]

theorem dictInsert_cons_ne (rest : List (String × String)) (k2 k v v2 : String)
    (h : ¬ k2 = k) :
    dictInsert ((k2, v2) :: rest) k v = (k2, v2) :: dictInsert rest k v := by
  simp [dictInsert, h]

theorem dictGet_cons_eq {α : Type} (rest : List (String × α)) (k : String)
    (v : α) : dictGet ((k, v) :: rest) k = some v := by
  simp [dictGet]

theorem dictGet_cons_ne {α : Type} (rest : List (String × α)) (k2 k : String)
    (v : α) (h : ¬ k2 = k) : dictGet ((k2, v) :: rest) k = dictGet rest k := by
  simp [dictGet, h]

theorem dictGet_mem {α : Type} (m : List (String × α)) (k : String) (v : α)
    (h : dictGet m k = some v) : (k, v) ∈ m := by
  induction m with
  | nil => simp [dictGet] at h
  | cons p rest ih =>
    obtain ⟨k2, v2⟩ := p
    by_cases hk : k2 = k
    · subst hk
      rw [dictGet_cons_eq] at h
      injection h with h2
      subst h2
      exact List.mem_cons_self _ _
    · rw [dictGet_cons_ne rest k2 k v2 hk] at h
      exact List.mem_cons_of_mem _ (ih h)

theorem dictGet_dictInsert (m : List (String × String)) (k v q : String) :
    dictGet (dictInsert m k v) q = if q = k then some v else dictGet m q := by
  induction m with
  | nil =>
    by_cases hq : q = k
    · subst hq
      simp [dictInsert, dictGet]
    · have hq2 : ¬ k = q := fun h2 => hq h2.symm
      simp [dictInsert, dictGet, hq, hq2]
  | cons p rest ih =>
    obtain ⟨k2, v2⟩ := p
    by_cases hk : k2 = k
    · subst hk
      rw [dictInsert_cons_eq]
      by_cases hq : k2 = q
      · subst hq
        simp [dictGet]
      · rw [dictGet_cons_ne rest k2 q v hq, dictGet_cons_ne rest k2 q v2 hq]
        have hq2 : ¬ q = k2 := fun h2 => hq h2.symm
        simp [hq2]
    · rw [dictInsert_cons_ne rest k2 k v v2 hk]
      by_cases hq : k2 = q
      · subst hq
        have hqk : ¬ k2 = k := hk
        rw [dictGet_cons_eq, dictGet_cons_eq]
        have : ¬ k2 = k := hk
        rw [if_neg (fun h2 => this h2)]
      · rw [dictGet_cons_ne (dictInsert rest k v) k2 q v2 hq,
          dictGet_cons_ne rest k2 q v2 hq, ih]

theorem mem_keys_dictInsert (m : List (String × String)) (k v q : String) :
    q ∈ (dictInsert m k v).map Prod.fst ↔ q ∈ m.map Prod.fst ∨ q = k := by
  induction m with
  | nil => simp [dictInsert]
  | cons p rest ih =>
    obtain ⟨k2, v2⟩ := p
    by_cases hk : k2 = k
    · subst hk
      rw [dictInsert_cons_eq]
      simp only [List.map_cons, List.mem_cons]
      tauto
    · rw [dictInsert_cons_ne rest k2 k v v2 hk]
      simp only [List.map_cons, List.mem_cons]
      rw [ih]
      tauto

theorem nodup_keys_dictInsert (m : List (String × String)) (k v : String)
    (h : (m.map Prod.fst).Nodup) : ((dictInsert m k v).map Prod.fst).Nodup := by
  induction m with
  | nil => simp [dictInsert]
  | cons p rest ih =>
    obtain ⟨k2, v2⟩ := p
    simp only [List.map_cons, List.nodup_cons] at h
    obtain ⟨hnot, hrest⟩ := h
    by_cases hk : k2 = k
    · subst hk
      rw [dictInsert_cons_eq]
      simp only [List.map_cons, List.nodup_cons]
      exact ⟨hnot, hrest⟩
    · rw [dictInsert_cons_ne rest k2 k v v2 hk]
      simp only [List.map_cons, List.nodup_cons]
      refine ⟨?_, ih hrest⟩
      intro hx
      rcases (mem_keys_dictInsert rest k v k2).mp hx with hmem | hke
      · exact hnot hmem
      · exact hk hke

theorem summary_fold_get (hist : List ConversationEntry)
    (m : List (String × String)) (q : String) :
    dictGet (hist.foldl (fun m2 e => dictInsert m2 e.question_id e.answer) m) q =
      firstSome (lastAnswerFor hist q) (dictGet m q) := by
  induction hist generalizing m with
  | nil => rfl
  | cons e t ih =>
    simp only [List.foldl_cons, lastAnswerFor]
    rw [ih]
    cases hL : lastAnswerFor t q with
    | some a => simp [firstSome]
    | none =>
      simp only [firstSome]
      rw [dictGet_dictInsert]
      by_cases hq : e.question_id = q
      · subst hq
        simp
      · have hq2 : ¬ q = e.question_id := fun h2 => hq h2.symm
        simp [hq, hq2]

theorem nodup_keys_fold (hist : List ConversationEntry)
    (m : List (String × String)) (h : (m.map Prod.fst).Nodup) :
    (((hist.foldl (fun m2 e => dictInsert m2 e.question_id e.answer) m)).map
      Prod.fst).Nodup := by
  induction hist generalizing m with
  | nil => exact h
  | cons e t ih =>
    simp only [List.foldl_cons]
    exact ih _ (nodup_keys_dictInsert _ _ _ h)

theorem mem_keys_fold (hist : List ConversationEntry)
    (m : List (String × String)) (q : String) :
    q ∈ ((hist.foldl (fun m2 e => dictInsert m2 e.question_id e.answer) m)).map
        Prod.fst ↔
      q ∈ m.map Prod.fst ∨ q ∈ hist.map ConversationEntry.question_id := by
  induction hist generalizing m with
  | nil => simp
  | cons e t ih =>
    simp only [List.foldl_cons, List.map_cons, List.mem_cons]
    rw [ih, mem_keys_dictInsert]
    tauto

theorem buildSummary_get (hist : List ConversationEntry) (q : String) :
    dictGet (buildSummary hist) q = lastAnswerFor hist q := by
  unfold buildSummary
  rw [summary_fold_get]
  cases lastAnswerFor hist q <;> rfl

theorem buildSummary_nodup (hist : List ConversationEntry) :
    ((buildSummary hist).map Prod.fst).Nodup :=
  nodup_keys_fold hist [] (by simp)

theorem buildSummary_mem (hist : List ConversationEntry) (q : String) :
    q ∈ (buildSummary hist).map Prod.fst ↔
      q ∈ hist.map ConversationEntry.question_id := by
  unfold buildSummary
  rw [mem_keys_fold]
  simp

theorem dictGet_QUESTIONS_empty : dictGet QUESTIONS "" = none := by decide

theorem graph_map_keys_ne_empty : ∀ p ∈ QUESTIONS,
    ∀ kv ∈ p.2.next_question_map, ¬ kv.1 = "" := by decide

theorem graph_targets_ok : ∀ p ∈ QUESTIONS, ∀ kv ∈ p.2.next_question_map,
    kv.2 = "end" ∨ (dictGet QUESTIONS kv.2).isSome = true := by decide

theorem graph_options_ok : ∀ p ∈ QUESTIONS, ∀ o ∈ p.2.options,
    (dictGet p.2.next_question_map o).isSome = true := by decide

theorem qid_ne_empty (qid : String) (cfg : QuestionConfig)
    (h : dictGet QUESTIONS qid = some cfg) : ¬ qid = "" := by
  intro hc
  rw [hc, dictGet_QUESTIONS_empty] at h
  exact Option.noConfusion h

theorem answer_ne_empty (e : ConversationEntry) (cfg : QuestionConfig)
    (nid : String) (hq : dictGet QUESTIONS e.question_id = some cfg)
    (ht : dictGet cfg.next_question_map e.answer = some nid) :
    ¬ e.answer = "" :=
  graph_map_keys_ne_empty (e.question_id, cfg) (dictGet_mem _ _ _ hq)
    (e.answer, nid) (dictGet_mem _ _ _ ht)

theorem resolveFromHistory_ok_of_transition (h : List ConversationEntry)
    (e : ConversationEntry) (cfg : QuestionConfig) (nid : String)
    (hl : h.getLast? = some e)
    (hq : dictGet QUESTIONS e.question_id = some cfg)
    (ht : dictGet cfg.next_question_map e.answer = some nid) :
    resolveFromHistory h = Except.ok (some nid) := by
  have hqne : e.question_id ≠ "" := qid_ne_empty _ _ hq
  have hane : e.answer ≠ "" := answer_ne_empty e cfg nid hq ht
  simp only [resolveFromHistory, hl]
  rw [if_pos (show e.question_id ≠ "" ∧ e.answer ≠ "" from ⟨hqne, hane⟩)]
  simp only [hq, ht]

theorem resolveFromHistory_corrupt (h : List ConversationEntry)
    (e : ConversationEntry) (cfg : QuestionConfig)
    (hl : h.getLast? = some e)
    (hane : e.answer ≠ "")
    (hq : dictGet QUESTIONS e.question_id = some cfg)
    (ht : dictGet cfg.next_question_map e.answer = none) :
    resolveFromHistory h = Except.error ChatError.corruptHistory := by
  have hqne : e.question_id ≠ "" := qid_ne_empty _ _ hq
  simp only [resolveFromHistory, hl]
  rw [if_pos (show e.question_id ≠ "" ∧ e.answer ≠ "" from ⟨hqne, hane⟩)]
  simp only [hq, ht]

theorem resolveFromHistory_unknown (h : List ConversationEntry)
    (e : ConversationEntry)
    (hl : h.getLast? = some e)
    (hq : dictGet QUESTIONS e.question_id = none) :
    resolveFromHistory h = Except.ok (some "q1_food_type") := by
  simp only [resolveFromHistory, hl]
  by_cases hc : e.question_id ≠ "" ∧ e.answer ≠ ""
  · rw [if_pos hc]
    simp only [hq]
  · rw [if_neg hc]

theorem processInput_valid (h : List ConversationEntry) (e : ConversationEntry)
    (cfg : QuestionConfig) (a : String) (n0 : Option String)
    (hl : h.getLast? = some e)
    (hq : dictGet QUESTIONS e.question_id = some cfg)
    (ha : a ∈ cfg.options) :
    processInput h (some a) n0 =
      Except.ok (h ++ [⟨e.question_id, a⟩], dictGet cfg.next_question_map a) := by
  have hqne : e.question_id ≠ "" := qid_ne_empty _ _ hq
  simp only [processInput, hl]
  rw [if_pos hqne]
  simp only [hq]
  rw [if_pos ha]

theorem processInput_invalid (h : List ConversationEntry)
    (e : ConversationEntry) (cfg : QuestionConfig) (a : String)
    (n0 : Option String)
    (hl : h.getLast? = some e)
    (hq : dictGet QUESTIONS e.question_id = some cfg)
    (ha : a ∉ cfg.options) :
    processInput h (some a) n0 =
      Except.error (ChatError.invalidAnswer cfg.question cfg.options a) := by
  have hqne : e.question_id ≠ "" := qid_ne_empty _ _ hq
  simp only [processInput, hl]
  rw [if_pos hqne]
  simp only [hq]
  rw [if_neg ha]

theorem processInput_unknown (h : List ConversationEntry)
    (e : ConversationEntry) (a : Option String) (n0 : Option String)
    (hl : h.getLast? = some e)
    (hq : dictGet QUESTIONS e.question_id = none) :
    processInput h a n0 = Except.ok (h, n0) := by
  cases a with
  | none => rfl
  | some input =>
    simp only [processInput, hl]
    by_cases hne : e.question_id ≠ ""
    · rw [if_pos hne]
      simp only [hq]
    · rw [if_neg hne]

theorem renderNext_end (h2 : List ConversationEntry) :
    renderNext h2 (some "end") = Except.ok
      { message := "Thank you for your responses! Here\x27s a summary of your preferences:",
        question_id := none,
        options := none,
        conversation_history := h2,
        is_conversation_complete := true,
        final_summary := some (buildSummary h2) } := by rfl

theorem renderNext_found (h2 : List ConversationEntry) (nid : String)
    (cfg : QuestionConfig) (hne : nid ≠ "end")
    (hget : dictGet QUESTIONS nid = some cfg) :
    renderNext h2 (some nid) = Except.ok
      { message := cfg.question,
        question_id := some nid,
        options := some cfg.options,
        conversation_history := h2,
        is_conversation_complete := false,
        final_summary := none } := by
  have hne2 : ¬ (some nid = some "end") := by
    intro hc
    injection hc with hc2
    exact hne hc2
  unfold renderNext
  rw [if_neg hne2]
  simp only [hget]

theorem renderNext_history (h2 : List ConversationEntry) (n : Option String)
    (r : ChatResponse) (hr : renderNext h2 n = Except.ok r) :
    r.conversation_history = h2 := by
  unfold renderNext at hr
  split at hr
  · injection hr with h3
    subst h3
    rfl
  · split at hr
    · split at hr
      · injection hr with h3
        subst h3
        rfl
      · exact Except.noConfusion hr
    · exact Except.noConfusion hr

theorem renderNext_complete (h2 : List ConversationEntry) (n : Option String)
    (r : ChatResponse) (hr : renderNext h2 n = Except.ok r)
    (hc : r.is_conversation_complete = true) :
    r.conversation_history = h2 ∧ r.final_summary = some (buildSummary h2) := by
  unfold renderNext at hr
  split at hr
  · injection hr with h3
    subst h3
    exact ⟨rfl, rfl⟩
  · split at hr
    · split at hr
      · injection hr with h3
        subst h3
        exact Bool.noConfusion hc
      · exact Except.noConfusion hr
    · exact Except.noConfusion hr

theorem resolveFromHistory_cases (h : List ConversationEntry) :
    resolveFromHistory h = Except.error ChatError.corruptHistory ∨
    ∃ n, resolveFromHistory h = Except.ok n ∧ NextIdOk n := by
  cases hl : h.getLast? with
  | none =>
    right
    refine ⟨some "q1_food_type", ?_, "q1_food_type", rfl, Or.inr rfl⟩
    simp only [resolveFromHistory, hl]
  | some e =>
    cases hq : dictGet QUESTIONS e.question_id with
    | none =>
      right
      exact ⟨some "q1_food_type", resolveFromHistory_unknown h e hl hq,
        "q1_food_type", rfl, Or.inr rfl⟩
    | some cfg =>
      by_cases hc : e.question_id ≠ "" ∧ e.answer ≠ ""
      · cases ht : dictGet cfg.next_question_map e.answer with
        | none =>
          left
          exact resolveFromHistory_corrupt h e cfg hl hc.2 hq ht
        | some nid =>
          right
          refine ⟨some nid, resolveFromHistory_ok_of_transition h e cfg nid hl hq ht,
            nid, rfl, ?_⟩
          exact graph_targets_ok (e.question_id, cfg) (dictGet_mem _ _ _ hq)
            (e.answer, nid) (dictGet_mem _ _ _ ht)
      · right
        refine ⟨some "q1_food_type", ?_, "q1_food_type", rfl, Or.inr rfl⟩
        simp only [resolveFromHistory, hl]
        rw [if_neg hc]

theorem processInput_cases (h : List ConversationEntry) (input : Option String)
    (n0 : Option String) (hn : NextIdOk n0) :
    (∃ p o v, processInput h input n0 =
      Except.error (ChatError.invalidAnswer p o v)) ∨
    ∃ h2 n1, processInput h input n0 = Except.ok (h2, n1) ∧ NextIdOk n1 := by
  cases input with
  | none => exact Or.inr ⟨h, n0, rfl, hn⟩
  | some a =>
    cases hl : h.getLast? with
    | none =>
      right
      refine ⟨h, n0, ?_, hn⟩
      simp only [processInput, hl]
    | some e =>
      cases hq : dictGet QUESTIONS e.question_id with
      | none =>
        exact Or.inr ⟨h, n0, processInput_unknown h e (some a) n0 hl hq, hn⟩
      | some cfg =>
        by_cases hopt : a ∈ cfg.options
        · right
          refine ⟨h ++ [⟨e.question_id, a⟩], dictGet cfg.next_question_map a,
            processInput_valid h e cfg a n0 hl hq hopt, ?_⟩
          have hs := graph_options_ok (e.question_id, cfg)
            (dictGet_mem _ _ _ hq) a hopt
          rw [Option.isSome_iff_exists] at hs
          obtain ⟨nid, hnid⟩ := hs
          exact ⟨nid, hnid, graph_targets_ok (e.question_id, cfg)
            (dictGet_mem _ _ _ hq) (a, nid) (dictGet_mem _ _ _ hnid)⟩
        · left
          exact ⟨cfg.question, cfg.options, a,
            processInput_invalid h e cfg a n0 hl hq hopt⟩

theorem renderNext_total (h2 : List ConversationEntry) (n : Option String)
    (hn : NextIdOk n) : ∃ r, renderNext h2 n = Except.ok r := by
  obtain ⟨nid, rfl, hcase⟩ := hn
  by_cases he : nid = "end"
  · subst he
    exact ⟨_, renderNext_end h2⟩
  · rcases hcase with hend | hsome
    · exact absurd hend he
    · rw [Option.isSome_iff_exists] at hsome
      obtain ⟨cfg, hcfg⟩ := hsome
      exact ⟨_, renderNext_found h2 nid cfg he hcfg⟩

theorem chat_ok_render (h : List ConversationEntry) (input : Option String)
    (r : ChatResponse) (hok : chat h input = Except.ok r) :
    ∃ h2 n1, renderNext h2 n1 = Except.ok r := by
  unfold chat at hok
  split at hok
  · exact Except.noConfusion hok
  · split at hok
    · exact Except.noConfusion hok
    · exact ⟨_, _, hok⟩

/-- C1: the spec scenario expects `advance([(q1_food_type, Italian)], "Pizza")`
to continue with `q3_pizza_toppings` and append `(q2_italian_preference, Pizza)`.
The code instead validates the submitted answer against the options of the
question recorded in the LAST HISTORY ENTRY (`q1_food_type`, options Italian /
Mexican / Indian) and therefore rejects "Pizza" with the InvalidAnswer
HTTP 400.  This theorem evaluates the handler at that failing input. -/
theorem c1_code_behavior :
    chat [⟨"q1_food_type", "Italian"⟩] (some "Pizza") =
      Except.error (ChatError.invalidAnswer
        "What kind of food are you in the mood for?"
        ["Italian", "Mexican", "Indian"] "Pizza") := by rfl

/-- C2 counterexample: a history ending in the unknown question id "bogus"
does NOT fail with CorruptHistory; the handler silently falls back to the
start question and returns Continue with the history unchanged. -/
theorem c2_counterexample :
    chat [⟨"bogus", "X"⟩] (some "Y") = Except.ok
      { message := "What kind of food are you in the mood for?",
        question_id := some "q1_food_type",
        options := some ["Italian", "Mexican", "Indian"],
        conversation_history := [⟨"bogus", "X"⟩],
        is_conversation_complete := false,
        final_summary := none } := by rfl

/-- C2 (amended): for every non-empty history whose last entry's question id
is not a key of the question graph, `advance` does not fail at all: it returns
Continue for the fixed start question `q1_food_type`, with the history
unchanged and any submitted answer ignored. -/
theorem c2_amended_unknown_id_restarts (h : List ConversationEntry)
    (e : ConversationEntry) (a : Option String)
    (hl : h.getLast? = some e)
    (hq : dictGet QUESTIONS e.question_id = none) :
    chat h a = Except.ok
      { message := "What kind of food are you in the mood for?",
        question_id := some "q1_food_type",
        options := some ["Italian", "Mexican", "Indian"],
        conversation_history := h,
        is_conversation_complete := false,
        final_summary := none } := by
  have h1 := resolveFromHistory_unknown h e hl hq
  have h2 := processInput_unknown h e a (some "q1_food_type") hl hq
  simp only [chat, h1, h2]
  rfl

/-- Witness for C2 (amended) at the concrete history `[(bogus, X)]` with no
submitted answer. -/
theorem c2_amended_witness :
    ([⟨"bogus", "X"⟩] : List ConversationEntry).getLast? = some ⟨"bogus", "X"⟩ ∧
    dictGet QUESTIONS (ConversationEntry.mk "bogus" "X").question_id = none ∧
    chat [⟨"bogus", "X"⟩] none = Except.ok
      { message := "What kind of food are you in the mood for?",
        question_id := some "q1_food_type",
        options := some ["Italian", "Mexican", "Indian"],
        conversation_history := [⟨"bogus", "X"⟩],
        is_conversation_complete := false,
        final_summary := none } :=
  ⟨rfl, rfl, c2_amended_unknown_id_restarts [⟨"bogus", "X"⟩] ⟨"bogus", "X"⟩ none rfl rfl⟩

/-- C3 counterexample: a completed conversation whose history holds the same
question id twice produces a summary with ONE entry for TWO history entries
(the Python dict comprehension collapses duplicate keys), so the summary does
not contain one entry per history entry. -/
theorem c3_counterexample :
    chat [⟨"q2_indian_dish", "Curry"⟩, ⟨"q2_indian_dish", "Curry"⟩] none =
      Except.ok
        { message := "Thank you for your responses! Here\x27s a summary of your preferences:",
          question_id := none,
          options := none,
          conversation_history :=
            [⟨"q2_indian_dish", "Curry"⟩, ⟨"q2_indian_dish", "Curry"⟩],
          is_conversation_complete := true,
          final_summary := some [("q2_indian_dish", "Curry")] } := by rfl

/-- C3 (amended): whenever the handler returns a Complete result, the summary
contains exactly one entry per DISTINCT question id of the final history (its
key list is duplicate-free and holds precisely the question ids occurring in
the history), and each key is mapped to the answer of that id's last
occurrence in the history.  When the history's ids are pairwise distinct this
is one entry per history entry, as the original claim states. -/
theorem c3_amended_summary_per_distinct_id (h : List ConversationEntry)
    (input : Option String) (r : ChatResponse)
    (hok : chat h input = Except.ok r)
    (hc : r.is_conversation_complete = true) :
    ∃ s, r.final_summary = some s ∧
      (s.map Prod.fst).Nodup ∧
      (∀ q, q ∈ s.map Prod.fst ↔
        q ∈ r.conversation_history.map ConversationEntry.question_id) ∧
      (∀ q, dictGet s q = lastAnswerFor r.conversation_history q) := by
  obtain ⟨h2, n1, hr⟩ := chat_ok_render h input r hok
  obtain ⟨hhist, hsum⟩ := renderNext_complete h2 n1 r hr hc
  refine ⟨buildSummary h2, hsum, buildSummary_nodup h2, ?_, ?_⟩
  · intro q
    rw [hhist]
    exact buildSummary_mem h2 q
  · intro q
    rw [hhist]
    exact buildSummary_get h2 q

/-- Witness for C3 (amended) at the concrete completed conversation
`[(q2_indian_dish, Curry)]` with no submitted answer. -/
theorem c3_amended_witness :
    chat [⟨"q2_indian_dish", "Curry"⟩] none = Except.ok
      { message := "Thank you for your responses! Here\x27s a summary of your preferences:",
        question_id := none,
        options := none,
        conversation_history := [⟨"q2_indian_dish", "Curry"⟩],
        is_conversation_complete := true,
        final_summary := some [("q2_indian_dish", "Curry")] } ∧
    (∃ s, (some [("q2_indian_dish", "Curry")] :
        Option (List (String × String))) = some s ∧
      (s.map Prod.fst).Nodup ∧
      (∀ q, q ∈ s.map Prod.fst ↔
        q ∈ [ConversationEntry.mk "q2_indian_dish" "Curry"].map
          ConversationEntry.question_id) ∧
      (∀ q, dictGet s q = lastAnswerFor [⟨"q2_indian_dish", "Curry"⟩] q)) :=
  ⟨rfl, c3_amended_summary_per_distinct_id [⟨"q2_indian_dish", "Curry"⟩] none _ rfl rfl⟩

/-- C4 counterexample: for the history `[(q1_food_type, Unicorn)]` — whose last
question exists in the graph — and the submitted answer "Sushi" (not among
q1's options), the handler fails with CorruptHistory, not InvalidAnswer: the
transition lookup on the corrupt recorded answer "Unicorn" raises before
validation is reached. -/
theorem c4_counterexample :
    chat [⟨"q1_food_type", "Unicorn"⟩] (some "Sushi") =
      Except.error ChatError.corruptHistory := by rfl

/-- C4 (amended): for every non-empty history whose last entry's question
exists in the graph, EXCEPT those whose last entry's recorded answer is
non-empty yet has no transition (the counterexample's CorruptHistory case) —
that is, for every such history whose recorded answer is either empty or a
key of that question's transition map — submitting an answer outside the
active question's option set fails with InvalidAnswer (carrying that
question's prompt and options); no result history is produced, so the history
is unchanged. -/
theorem c4_amended_invalid_answer (h : List ConversationEntry)
    (e : ConversationEntry) (cfg : QuestionConfig) (a : String)
    (hl : h.getLast? = some e)
    (hq : dictGet QUESTIONS e.question_id = some cfg)
    (hta : e.answer = "" ∨ (dictGet cfg.next_question_map e.answer).isSome = true)
    (ha : a ∉ cfg.options) :
    chat h (some a) =
      Except.error (ChatError.invalidAnswer cfg.question cfg.options a) := by
  rcases hta with hempty | hkey
  · have h1 : resolveFromHistory h = Except.ok (some "q1_food_type") := by
      simp only [resolveFromHistory, hl]
      rw [if_neg (fun hc : e.question_id ≠ "" ∧ e.answer ≠ "" => hc.2 hempty)]
    have h2 := processInput_invalid h e cfg a (some "q1_food_type") hl hq ha
    simp only [chat, h1, h2]
  · rw [Option.isSome_iff_exists] at hkey
    obtain ⟨nid, ht⟩ := hkey
    have h1 := resolveFromHistory_ok_of_transition h e cfg nid hl hq ht
    have h2 := processInput_invalid h e cfg a (some nid) hl hq ha
    simp only [chat, h1, h2]

/-- Witness for C4 (amended) at the empty-recorded-answer corner: history
`[(q1_food_type, "")]` (in the amendment's scope through the left disjunct)
with the submitted answer "Sushi" outside q1's options fails with
InvalidAnswer carrying q1's prompt and options. -/
theorem c4_amended_witness :
    dictGet QUESTIONS "q1_food_type" = some
      { question := "What kind of food are you in the mood for?",
        options := ["Italian", "Mexican", "Indian"],
        next_question_map := [
          ("Italian", "q2_italian_preference"),
          ("Mexican", "q2_mexican_spice"),
          ("Indian", "q2_indian_dish")] } ∧
    ((ConversationEntry.mk "q1_food_type" "").answer = "" ∨
      (dictGet [("Italian", "q2_italian_preference"),
        ("Mexican", "q2_mexican_spice"),
        ("Indian", "q2_indian_dish")] "").isSome = true) ∧
    "Sushi" ∉ ["Italian", "Mexican", "Indian"] ∧
    chat [⟨"q1_food_type", ""⟩] (some "Sushi") =
      Except.error (ChatError.invalidAnswer
        "What kind of food are you in the mood for?"
        ["Italian", "Mexican", "Indian"] "Sushi") :=
  ⟨rfl, Or.inl rfl, by decide, c4_amended_invalid_answer [⟨"q1_food_type", ""⟩]
    ⟨"q1_food_type", ""⟩ _ "Sushi" rfl rfl (Or.inl rfl) (by decide)⟩

/-- C5: for every non-empty history whose last entry's question is in the
graph with option set O, and every submitted answer in O, any successful
result of the handler carries exactly the input history with the single new
entry (last question id, submitted answer) appended, prior entries unchanged
and in order. -/
theorem c5_append_on_valid (h : List ConversationEntry) (e : ConversationEntry)
    (cfg : QuestionConfig) (a : String) (r : ChatResponse)
    (hl : h.getLast? = some e)
    (hq : dictGet QUESTIONS e.question_id = some cfg)
    (ha : a ∈ cfg.options)
    (hok : chat h (some a) = Except.ok r) :
    r.conversation_history = h ++ [⟨e.question_id, a⟩] := by
  rcases resolveFromHistory_cases h with hres | ⟨n0, hres, hn0⟩
  · simp only [chat, hres] at hok
    exact Except.noConfusion hok
  · have hp := processInput_valid h e cfg a n0 hl hq ha
    simp only [chat, hres, hp] at hok
    exact renderNext_history _ _ _ hok

/-- Witness for C5 at history `[(q1_food_type, Italian)]` with the valid
answer "Italian": the handler succeeds and the returned history is the input
history plus one appended entry. -/
theorem c5_witness :
    "Italian" ∈ ["Italian", "Mexican", "Indian"] ∧
    chat [⟨"q1_food_type", "Italian"⟩] (some "Italian") = Except.ok
      { message := "Do you prefer pasta or pizza?",
        question_id := some "q2_italian_preference",
        options := some ["Pasta", "Pizza"],
        conversation_history :=
          [⟨"q1_food_type", "Italian"⟩, ⟨"q1_food_type", "Italian"⟩],
        is_conversation_complete := false,
        final_summary := none } ∧
    ({ message := "Do you prefer pasta or pizza?",
       question_id := some "q2_italian_preference",
       options := some ["Pasta", "Pizza"],
       conversation_history :=
         [⟨"q1_food_type", "Italian"⟩, ⟨"q1_food_type", "Italian"⟩],
       is_conversation_complete := false,
       final_summary := none } : ChatResponse).conversation_history =
      [⟨"q1_food_type", "Italian"⟩] ++ [⟨"q1_food_type", "Italian"⟩] :=
  ⟨by decide, rfl, c5_append_on_valid [⟨"q1_food_type", "Italian"⟩]
    ⟨"q1_food_type", "Italian"⟩
    { question := "What kind of food are you in the mood for?",
      options := ["Italian", "Mexican", "Indian"],
      next_question_map := [
        ("Italian", "q2_italian_preference"),
        ("Mexican", "q2_mexican_spice"),
        ("Indian", "q2_indian_dish")] }
    "Italian" _ rfl rfl (by decide) rfl⟩

/-- C6: with an empty history the handler always returns Continue for the
fixed start question `q1_food_type` (its prompt and options, empty history),
for every value of the submitted answer — a submitted answer on an empty
history is silently ignored rather than rejected. -/
theorem c6_start_behaviour (user_input : Option String) :
    chat [] user_input = Except.ok
      { message := "What kind of food are you in the mood for?",
        question_id := some "q1_food_type",
        options := some ["Italian", "Mexican", "Indian"],
        conversation_history := [],
        is_conversation_complete := false,
        final_summary := none } := by
  cases user_input <;> rfl

/-- C7 counterexample: the history `[(q1_food_type, "")]` is non-empty, its
last question exists in the graph, and its recorded answer "" is not a key of
q1's transition map — yet the handler does not fail with CorruptHistory: the
empty string is falsy in Python, the transition block is skipped, and the
start question is returned with the history unchanged. -/
theorem c7_counterexample :
    chat [⟨"q1_food_type", ""⟩] none = Except.ok
      { message := "What kind of food are you in the mood for?",
        question_id := some "q1_food_type",
        options := some ["Italian", "Mexican", "Indian"],
        conversation_history := [⟨"q1_food_type", ""⟩],
        is_conversation_complete := false,
        final_summary := none } := by rfl

/-- C7 (amended): for every non-empty history whose last entry names a
question that exists in the graph and whose recorded answer is NON-EMPTY and
not a key of that question's transition map, the handler fails with
CorruptHistory, for every submitted answer (present or absent). -/
theorem c7_amended_corrupt_on_missing_transition (h : List ConversationEntry)
    (e : ConversationEntry) (cfg : QuestionConfig) (a : Option String)
    (hl : h.getLast? = some e)
    (hq : dictGet QUESTIONS e.question_id = some cfg)
    (hane : e.answer ≠ "")
    (ht : dictGet cfg.next_question_map e.answer = none) :
    chat h a = Except.error ChatError.corruptHistory := by
  have h1 := resolveFromHistory_corrupt h e cfg hl hane hq ht
  simp only [chat, h1]

/-- Witness for C7 (amended): spec scenario 6, history
`[(q1_food_type, Unicorn)]` and submitted answer "X". -/
theorem c7_amended_witness :
    ("Unicorn" : String) ≠ "" ∧
    dictGet QUESTIONS "q1_food_type" = some
      { question := "What kind of food are you in the mood for?",
        options := ["Italian", "Mexican", "Indian"],
        next_question_map := [
          ("Italian", "q2_italian_preference"),
          ("Mexican", "q2_mexican_spice"),
          ("Indian", "q2_indian_dish")] } ∧
    dictGet [("Italian", "q2_italian_preference"),
      ("Mexican", "q2_mexican_spice"),
      ("Indian", "q2_indian_dish")] "Unicorn" = none ∧
    chat [⟨"q1_food_type", "Unicorn"⟩] (some "X") =
      Except.error ChatError.corruptHistory :=
  ⟨by decide, rfl, rfl, c7_amended_corrupt_on_missing_transition
    [⟨"q1_food_type", "Unicorn"⟩] ⟨"q1_food_type", "Unicorn"⟩ _ (some "X")
    rfl rfl (by decide) rfl⟩

/-- C8: every node of the static QUESTIONS graph is well-formed: the key set
of its transition mapping equals its option set exactly (each option has a
transition and each transition key is an option), and every transition target
is the terminal marker "end" or an existing question id. -/
theorem c8_graph_wellformed :
    QUESTIONS.all (fun p => nodeOk QUESTIONS p.2) = true := by rfl

/-- C9: starting from the start node `q1_food_type` and following any
sequence of valid options, the terminal marker "end" is reached within a
bounded number of steps (at most 3 transitions, hence fuel 4); in particular
no cycle is reachable from the start node. -/
theorem c9_terminal_reachability : reachesEnd 4 "q1_food_type" = true := by rfl

/-- C10: the HTTP 500 "internal error" branch is unreachable — for every
history and every optional submitted answer, the handler produces a Continue
or Complete result, an InvalidAnswer error, or a CorruptHistory error, never
the internalError. -/
theorem c10_no_internal_error (h : List ConversationEntry)
    (input : Option String) :
    (∃ r, chat h input = Except.ok r) ∨
    (∃ p o v, chat h input = Except.error (ChatError.invalidAnswer p o v)) ∨
    chat h input = Except.error ChatError.corruptHistory := by
  rcases resolveFromHistory_cases h with hres | ⟨n0, hres, hn0⟩
  · right; right
    simp only [chat, hres]
  · rcases processInput_cases h input n0 hn0 with ⟨p, o, v, hpe⟩ | ⟨h2, n1, hp, hn1⟩
    · right; left
      refine ⟨p, o, v, ?_⟩
      simp only [chat, hres, hpe]
    · left
      obtain ⟨r, hr⟩ := renderNext_total h2 n1 hn1
      refine ⟨r, ?_⟩
      simp only [chat, hres, hp]
      exact hr
